import Mathlib

/-!
Verification development for the ETL pipeline of the repository, file
app/data_processing/etl_pipeline.py, centred on the function transform_orders.

The transformer is embedded shallowly: a pandas DataFrame column of text
becomes a field of a record, a row mask becomes a Bool predicate on records,
and the vectorised column updates become per-record functions applied with
List.map.  Python floats are modelled by exact rationals; round() and the
pandas Series.round use round-half-to-even, modelled exactly on rationals.
The external library parsers pandas.to_datetime and pandas.to_numeric are
parameters of the embedding (the transformer is proved correct for every
parser); sample parsers accepting ISO dates and plain decimal numerals are
supplied to instantiate concrete scenarios.  pandas sort_values on the two
columns order_date, order_id is numpy lexsort, a stable sort by that key
pair; every stable sort by the same total preorder computes the same list,
so it is embedded as insertion sort by that key.
-/

set_option maxRecDepth 8000

attribute [local semireducible] Rat.add Rat.mul Rat.sub Rat.inv

namespace Etl

/-- One raw CSV row: the six text columns, exactly as read (dtype=str).
A missing cell is the empty string, matching fillna of stage 1. -/
structure RawRecord where
  order_id : String
  order_date : String
  customer_id : String
  product : String
  quantity : String
  unit_price : String
deriving Repr, DecidableEq

/-- A calendar date as produced by the permissive date parser. -/
structure Date where
  year : Nat
  month : Nat
  day : Nat
deriving Repr, DecidableEq

/-- A survivor of the date filter: trimmed text fields plus the parsed
order_date_dt, quantity_num and unit_price_num columns of stages 2 and 3;
none models NaN from coercing errors. -/
structure Survivor where
  order_id : String
  customer_id : String
  product : String
  date : Date
  quantity_num : Option ℚ
  unit_price_num : Option ℚ
deriving Repr, DecidableEq

/-- A survivor after stage 5: quantity_num and unit_price_num are filled,
customer_id may have been replaced by the sentinel. -/
structure Repaired where
  order_id : String
  customer_id : String
  product : String
  date : Date
  quantity_num : ℚ
  unit_price_num : ℚ
deriving Repr, DecidableEq

/-- One output row, the eight columns of cleaned_df in declared order. -/
structure CleanedRecord where
  order_id : String
  order_date : String
  customer_id : String
  product : String
  quantity : ℤ
  unit_price : ℚ
  order_month : String
  line_total : ℚ
deriving Repr, DecidableEq

/-- The TransformStats TypedDict of the source. -/
structure TransformStats where
  transformed_records : Nat
  dropped_invalid_order_date_count : Nat
  filled_customer_id_count : Nat
  filled_quantity_count : Nat
  filled_unit_price_count : Nat
  quantity_fill_value : ℚ
  unit_price_fill_value : ℚ
deriving Repr, DecidableEq

/-- Round to the nearest integer, ties to even: the rounding of Python
round() and of numpy, applied to exact rationals. -/
def roundHalfEven (q : ℚ) : ℤ :=
  let f := Rat.floor q
  let frac := q - (f : ℚ)
  if frac < 1 / 2 then f
  else if 1 / 2 < frac then f + 1
  else if f % 2 = 0 then f else f + 1

/-- Round to 2 decimal places, ties to even: round(x, 2). -/
def round2 (q : ℚ) : ℚ := (roundHalfEven (q * 100) : ℚ) / 100

/-- Model of normalize_number of the source: round to 2 decimal places.
The source additionally converts an integral float to a JSON int, which does
not change the rational value denoted. -/
def normalize_number (q : ℚ) : ℚ := round2 q

/-- Model of pandas Series.median on the list of values in row order: sort
ascending, take the middle value for odd length, the mean of the two middle
values for even length. -/
def median (l : List ℚ) : ℚ :=
  let s := List.insertionSort (· ≤ ·) l
  if l.length % 2 = 1 then s.getD (l.length / 2) 0
  else (s.getD (l.length / 2 - 1) 0 + s.getD (l.length / 2) 0) / 2

/-- Model of str.strip: drop whitespace from both ends. -/
def strip (s : String) : String :=
  ⟨((s.data.dropWhile Char.isWhitespace).reverse.dropWhile Char.isWhitespace).reverse⟩

/-- Stage 1: trim every text field of a row. -/
def trimRecord (r : RawRecord) : RawRecord :=
  { order_id := strip r.order_id
    order_date := strip r.order_date
    customer_id := strip r.customer_id
    product := strip r.product
    quantity := strip r.quantity
    unit_price := strip r.unit_price }

/-- Stages 2 and 3 for one trimmed row: parse the order date (none drops the
row) and attach the parsed numeric columns. -/
def survivorOf (pd : String → Option Date) (pn : String → Option ℚ)
    (r : RawRecord) : Option Survivor :=
  (pd r.order_date).map fun d =>
    { order_id := r.order_id
      customer_id := r.customer_id
      product := r.product
      date := d
      quantity_num := pn r.quantity
      unit_price_num := pn r.unit_price }

/-- The survivors of the date filter, in input order. -/
def survivorsOf (pd : String → Option Date) (pn : String → Option ℚ)
    (batch : List RawRecord) : List Survivor :=
  (batch.map trimRecord).filterMap (survivorOf pd pn)

/-- Count of rows dropped for an unparseable order date (stage 2). -/
def droppedCount (pd : String → Option Date) (batch : List RawRecord) : Nat :=
  (batch.map trimRecord).countP fun r => (pd r.order_date).isNone

/-- Stage 4: quantity fill value, the median of the strictly positive parsed
quantities among survivors, or 1.0 when none exists. -/
def quantityFillValue (s : List Survivor) : ℚ :=
  let valid := (s.filterMap Survivor.quantity_num).filter fun q => decide (0 < q)
  if valid.isEmpty then 1 else median valid

/-- Stage 4: unit price fill value, the median of the non-negative parsed
prices among survivors, or 0.0 when none exists. -/
def unitPriceFillValue (s : List Survivor) : ℚ :=
  let valid := (s.filterMap Survivor.unit_price_num).filter fun q => decide (0 ≤ q)
  if valid.isEmpty then 0 else median valid

/-- Repair mask: customer_id is empty after trimming. -/
def customerMissing (s : Survivor) : Bool := decide (s.customer_id = "")

/-- Repair mask: quantity failed to parse or is non-positive. -/
def quantityInvalid (s : Survivor) : Bool :=
  match s.quantity_num with
  | none => true
  | some q => decide (q ≤ 0)

/-- Repair mask: unit price failed to parse or is negative. -/
def unitPriceInvalid (s : Survivor) : Bool :=
  match s.unit_price_num with
  | none => true
  | some p => decide (p < 0)

/-- Stage 5 for one survivor: fill the three fields whose mask holds; the
masks are evaluated on the incoming survivor, never on updated values. -/
def repairRecord (qFill pFill : ℚ) (s : Survivor) : Repaired :=
  { order_id := s.order_id
    customer_id := if customerMissing s then "UNKNOWN_CUSTOMER" else s.customer_id
    product := s.product
    date := s.date
    quantity_num := if quantityInvalid s then qFill else s.quantity_num.getD 0
    unit_price_num := if unitPriceInvalid s then pFill else s.unit_price_num.getD 0 }

/-- Two-digit zero padding of strftime month and day fields. -/
def pad2 (n : Nat) : String := if n < 10 then "0" ++ Nat.repr n else Nat.repr n

/-- strftime with format %Y-%m. -/
def formatMonth (d : Date) : String := Nat.repr d.year ++ "-" ++ pad2 d.month

/-- strftime with format %Y-%m-%d. -/
def formatDate (d : Date) : String := formatMonth d ++ "-" ++ pad2 d.day

/-- Stage 6 for one repaired survivor: format the date columns, round the
quantity to an int, and derive line_total. -/
def finalizeRecord (r : Repaired) : CleanedRecord :=
  let q : ℤ := roundHalfEven r.quantity_num
  { order_id := r.order_id
    order_date := formatDate r.date
    customer_id := r.customer_id
    product := r.product
    quantity := q
    unit_price := r.unit_price_num
    order_month := formatMonth r.date
    line_total := round2 ((q : ℚ) * r.unit_price_num) }

/-- Lexicographic less-or-equal on code point lists, the order in which
Python compares strings. -/
def charsLe : List Char → List Char → Bool
  | [], _ => true
  | _ :: _, [] => false
  | c :: cs, d :: ds => if c < d then true else if d < c then false else charsLe cs ds

/-- The sort key comparison of stage 7: the pair (order_date, order_id)
compared lexicographically. -/
def keyLeB (a b : CleanedRecord) : Bool :=
  if a.order_date.data = b.order_date.data then charsLe a.order_id.data b.order_id.data
  else charsLe a.order_date.data b.order_date.data

/-- Propositional form of the sort key comparison. -/
def cleanLe (a b : CleanedRecord) : Prop := keyLeB a b = true

instance : DecidableRel cleanLe := fun a b => inferInstanceAs (Decidable (keyLeB a b = true))

/-- The repaired survivors, in survivor order. -/
def repairedOf (pd : String → Option Date) (pn : String → Option ℚ)
    (batch : List RawRecord) : List Repaired :=
  (survivorsOf pd pn batch).map
    (repairRecord (quantityFillValue (survivorsOf pd pn batch))
      (unitPriceFillValue (survivorsOf pd pn batch)))

/-- The finalized survivors, still in survivor order (before the sort). -/
def finalizedOf (pd : String → Option Date) (pn : String → Option ℚ)
    (batch : List RawRecord) : List CleanedRecord :=
  (repairedOf pd pn batch).map finalizeRecord

/-- The whole transformer: cleaned rows sorted by (order_date, order_id)
plus the stage statistics, mirroring transform_orders of the source. -/
def transform_orders (pd : String → Option Date) (pn : String → Option ℚ)
    (batch : List RawRecord) : List CleanedRecord × TransformStats :=
  let cleaned := List.insertionSort cleanLe (finalizedOf pd pn batch)
  (cleaned,
    { transformed_records := cleaned.length
      dropped_invalid_order_date_count := droppedCount pd batch
      filled_customer_id_count := (survivorsOf pd pn batch).countP customerMissing
      filled_quantity_count := (survivorsOf pd pn batch).countP quantityInvalid
      filled_unit_price_count := (survivorsOf pd pn batch).countP unitPriceInvalid
      quantity_fill_value := normalize_number (quantityFillValue (survivorsOf pd pn batch))
      unit_price_fill_value := normalize_number (unitPriceFillValue (survivorsOf pd pn batch)) })

/-- Digit-list accumulator for the sample parsers; none on a non-digit. -/
def digitsVal : List Char → Nat → Option Nat
  | [], acc => some acc
  | c :: rest, acc =>
    if c.isDigit then digitsVal rest (acc * 10 + (c.toNat - 48)) else none

/-- Fractional part value of a digit list; none on a non-digit. -/
def fracVal : List Char → Option ℚ
  | [] => some 0
  | c :: rest =>
    if c.isDigit then (fracVal rest).map (fun v => (mkRat (c.toNat - 48) 1 + v) / 10)
    else none

/-- Sample numeric parser instantiating pandas.to_numeric with errors
coerced: an optional sign, digits, an optional fractional part. -/
def decimal? (s : String) : Option ℚ :=
  let signed : Bool × List Char :=
    match s.data with
    | '-' :: rest => (true, rest)
    | '+' :: rest => (false, rest)
    | cs => (false, cs)
  let body := signed.2
  let withSign : ℚ → ℚ := fun v => if signed.1 then -v else v
  match body.span (fun c => !decide (c = '.')) with
  | (intPart, []) =>
    if intPart.isEmpty then none
    else (digitsVal intPart 0).map fun n => withSign (mkRat n 1)
  | (intPart, _ :: fracPart) =>
    if intPart.isEmpty && fracPart.isEmpty then none
    else
      match digitsVal intPart 0, fracVal fracPart with
      | some i, some f => some (withSign (mkRat i 1 + f))
      | _, _ => none

/-- Split a code point list at every occurrence of a separator. -/
def splitOnChar (sep : Char) : List Char → List (List Char)
  | [] => [[]]
  | c :: rest =>
    if c = sep then [] :: splitOnChar sep rest
    else
      match splitOnChar sep rest with
      | [] => [[c]]
      | h :: t => (c :: h) :: t

/-- The constraints every date produced by pandas.to_datetime satisfies:
pandas Timestamps range over the years 1677 to 2262, with calendar month
and day fields. -/
def ValidDate (d : Date) : Prop :=
  1677 ≤ d.year ∧ d.year ≤ 2262 ∧ 1 ≤ d.month ∧ d.month ≤ 12 ∧ 1 ≤ d.day ∧ d.day ≤ 31

/-- Sample date parser instantiating pandas.to_datetime with errors coerced:
accepts the ISO form with all parts numeric and in the pandas Timestamp
range. -/
def isoDate? (s : String) : Option Date :=
  match splitOnChar '-' s.data with
  | [y, m, d] =>
    if y.isEmpty || m.isEmpty || d.isEmpty then none
    else
      match digitsVal y 0, digitsVal m 0, digitsVal d 0 with
      | some yv, some mv, some dv =>
        if 1677 ≤ yv ∧ yv ≤ 2262 ∧ 1 ≤ mv ∧ mv ≤ 12 ∧ 1 ≤ dv ∧ dv ≤ 31 then
          some ⟨yv, mv, dv⟩
        else none
      | _, _, _ => none
  | _ => none

end Etl

namespace Etl

theorem charsLe_refl (l : List Char) : charsLe l l = true := by
  induction l with
  | nil => rfl
  | cons c cs ih => simp [charsLe, lt_irrefl, ih]

theorem charsLe_total (a b : List Char) : charsLe a b = true ∨ charsLe b a = true := by
  induction a generalizing b with
  | nil => left; rfl
  | cons c cs ih =>
    cases b with
    | nil => right; rfl
    | cons d ds =>
      rcases lt_trichotomy c d with h | h | h
      · left; simp [charsLe, h]
      · subst h
        rcases ih ds with h2 | h2
        · left; simp [charsLe, lt_irrefl, h2]
        · right; simp [charsLe, lt_irrefl, h2]
      · right; simp [charsLe, h]

theorem charsLe_antisymm {a b : List Char} (h1 : charsLe a b = true)
    (h2 : charsLe b a = true) : a = b := by
  induction a generalizing b with
  | nil =>
    cases b with
    | nil => rfl
    | cons d ds => simp [charsLe] at h2
  | cons c cs ih =>
    cases b with
    | nil => simp [charsLe] at h1
    | cons d ds =>
      by_cases hcd : c < d
      · simp [charsLe, hcd, asymm hcd] at h2
      · by_cases hdc : d < c
        · simp [charsLe, hcd, hdc] at h1
        · have hce : c = d := le_antisymm (not_lt.mp hdc) (not_lt.mp hcd)
          subst hce
          simp only [charsLe, if_neg hcd, if_neg hdc] at h1 h2
          rw [ih h1 h2]

theorem charsLe_trans {a b c : List Char} (h1 : charsLe a b = true)
    (h2 : charsLe b c = true) : charsLe a c = true := by
  induction a generalizing b c with
  | nil => rfl
  | cons x xs ih =>
    cases b with
    | nil => simp [charsLe] at h1
    | cons y ys =>
      cases c with
      | nil => simp [charsLe] at h2
      | cons z zs =>
        by_cases hxy : x < y
        · by_cases hyz : y < z
          · simp [charsLe, lt_trans hxy hyz]
          · by_cases hzy : z < y
            · simp [charsLe, hyz, hzy] at h2
            · have : y = z := le_antisymm (not_lt.mp hzy) (not_lt.mp hyz)
              subst this
              simp [charsLe, hxy]
        · by_cases hyx : y < x
          · simp [charsLe, hxy, hyx] at h1
          · have hexy : x = y := le_antisymm (not_lt.mp hyx) (not_lt.mp hxy)
            subst hexy
            simp only [charsLe, if_neg hxy, if_neg hyx] at h1
            by_cases hxz : x < z
            · simp [charsLe, hxz]
            · by_cases hzx : z < x
              · simp [charsLe, hxz, hzx] at h2
              · simp only [charsLe, if_neg hxz, if_neg hzx] at h2 ⊢
                exact ih h1 h2

instance : IsTotal CleanedRecord cleanLe := by
  constructor
  intro a b
  unfold cleanLe keyLeB
  by_cases h : a.order_date.data = b.order_date.data
  · simp [h, charsLe_total a.order_id.data b.order_id.data]
  · have h2 : ¬ b.order_date.data = a.order_date.data := fun he => h he.symm
    simp [h, h2, charsLe_total a.order_date.data b.order_date.data]

instance : IsTrans CleanedRecord cleanLe := by
  constructor
  intro a b c h1 h2
  unfold cleanLe keyLeB at h1 h2 ⊢
  by_cases hab : a.order_date.data = b.order_date.data
  · by_cases hbc : b.order_date.data = c.order_date.data
    · rw [if_pos hab] at h1
      rw [if_pos hbc] at h2
      rw [if_pos (hab.trans hbc)]
      exact charsLe_trans h1 h2
    · rw [if_neg hbc] at h2
      have hac : ¬ a.order_date.data = c.order_date.data := fun he => hbc (hab.symm.trans he)
      rw [if_neg hac, hab]
      exact h2
  · by_cases hbc : b.order_date.data = c.order_date.data
    · rw [if_neg hab] at h1
      have hac : ¬ a.order_date.data = c.order_date.data := fun he => hab (he.trans hbc.symm)
      rw [if_neg hac, ← hbc]
      exact h1
    · rw [if_neg hab] at h1
      rw [if_neg hbc] at h2
      by_cases hac : a.order_date.data = c.order_date.data
      · exact absurd (charsLe_antisymm h1 (hac ▸ h2)) hab
      · rw [if_neg hac]
        exact charsLe_trans h1 h2

theorem length_filterMap_eq_countP {α β : Type} (f : α → Option β) (l : List α) :
    (l.filterMap f).length = l.countP fun x => (f x).isSome := by
  induction l with
  | nil => rfl
  | cons a t ih => cases h : f a <;> simp [List.filterMap_cons, h, List.countP_cons, ih]

end Etl

namespace Etl

theorem median_pos {l : List ℚ} (hne : l ≠ []) (hp : ∀ x ∈ l, 0 < x) : 0 < median l := by
  have hlen : 0 < l.length := List.length_pos.mpr hne
  have hslen : (List.insertionSort (· ≤ ·) l).length = l.length :=
    List.length_insertionSort (· ≤ ·) l
  have helt : ∀ i, i < l.length → 0 < (List.insertionSort (· ≤ ·) l).getD i 0 := by
    intro i hi
    have hi2 : i < (List.insertionSort (· ≤ ·) l).length := by omega
    rw [List.getD_eq_getElem _ _ hi2]
    exact hp _ ((List.mem_insertionSort (· ≤ ·)).mp (List.getElem_mem hi2))
  unfold median
  split
  · exact helt _ (by omega)
  · rename_i hodd
    have heven : l.length % 2 = 0 := by omega
    have h2 : 2 ≤ l.length := by omega
    have ha := helt (l.length / 2 - 1) (by omega)
    have hb := helt (l.length / 2) (by omega)
    have hsum : 0 < (List.insertionSort (· ≤ ·) l).getD (l.length / 2 - 1) 0 +
        (List.insertionSort (· ≤ ·) l).getD (l.length / 2) 0 := add_pos ha hb
    exact div_pos hsum (by norm_num)

theorem median_nonneg {l : List ℚ} (hne : l ≠ []) (hp : ∀ x ∈ l, 0 ≤ x) : 0 ≤ median l := by
  have hlen : 0 < l.length := List.length_pos.mpr hne
  have hslen : (List.insertionSort (· ≤ ·) l).length = l.length :=
    List.length_insertionSort (· ≤ ·) l
  have helt : ∀ i, i < l.length → 0 ≤ (List.insertionSort (· ≤ ·) l).getD i 0 := by
    intro i hi
    have hi2 : i < (List.insertionSort (· ≤ ·) l).length := by omega
    rw [List.getD_eq_getElem _ _ hi2]
    exact hp _ ((List.mem_insertionSort (· ≤ ·)).mp (List.getElem_mem hi2))
  unfold median
  split
  · exact helt _ (by omega)
  · rename_i hodd
    have heven : l.length % 2 = 0 := by omega
    have h2 : 2 ≤ l.length := by omega
    have ha := helt (l.length / 2 - 1) (by omega)
    have hb := helt (l.length / 2) (by omega)
    exact div_nonneg (add_nonneg ha hb) (by norm_num)

theorem quantityFillValue_pos (s : List Survivor) : 0 < quantityFillValue s := by
  simp only [quantityFillValue]
  split
  · exact one_pos
  · rename_i hne
    apply median_pos
    · simpa [List.isEmpty_iff] using hne
    · intro x hx
      exact of_decide_eq_true (List.mem_filter.mp hx).2

theorem unitPriceFillValue_nonneg (s : List Survivor) : 0 ≤ unitPriceFillValue s := by
  simp only [unitPriceFillValue]
  split
  · exact le_refl 0
  · rename_i hne
    apply median_nonneg
    · simpa [List.isEmpty_iff] using hne
    · intro x hx
      exact of_decide_eq_true (List.mem_filter.mp hx).2

theorem roundHalfEven_nonneg {q : ℚ} (h : 0 ≤ q) : 0 ≤ roundHalfEven q := by
  have hf : (0 : ℤ) ≤ Rat.floor q := by
    rw [Rat.le_floor]
    exact_mod_cast h
  simp only [roundHalfEven]
  split
  · exact hf
  · split
    · omega
    · split <;> omega

theorem repairRecord_quantity_pos (qf pf : ℚ) (x : Survivor) (hq : 0 < qf) :
    0 < (repairRecord qf pf x).quantity_num := by
  unfold repairRecord
  dsimp only
  split
  · exact hq
  · rename_i hinv
    cases hx : x.quantity_num with
    | none => simp [quantityInvalid, hx] at hinv
    | some v =>
      simp only [Option.getD_some]
      have h2 : ¬ (v ≤ 0) := by simpa [quantityInvalid, hx] using hinv
      exact lt_of_not_le h2

theorem repairRecord_price_nonneg (qf pf : ℚ) (x : Survivor) (hp : 0 ≤ pf) :
    0 ≤ (repairRecord qf pf x).unit_price_num := by
  unfold repairRecord
  dsimp only
  split
  · exact hp
  · rename_i hinv
    cases hx : x.unit_price_num with
    | none => simp [unitPriceInvalid, hx] at hinv
    | some v =>
      simp only [Option.getD_some]
      have h2 : ¬ (v < 0) := by simpa [unitPriceInvalid, hx] using hinv
      exact not_lt.mp h2

theorem mem_transform_iff (pd : String → Option Date) (pn : String → Option ℚ)
    (batch : List RawRecord) (c : CleanedRecord) :
    c ∈ (transform_orders pd pn batch).1 ↔
      ∃ x ∈ survivorsOf pd pn batch,
        finalizeRecord (repairRecord (quantityFillValue (survivorsOf pd pn batch))
          (unitPriceFillValue (survivorsOf pd pn batch)) x) = c := by
  show c ∈ List.insertionSort cleanLe (finalizedOf pd pn batch) ↔ _
  rw [List.mem_insertionSort]
  unfold finalizedOf repairedOf
  simp [List.mem_map]

end Etl

namespace Etl

set_option maxRecDepth 12000 in
theorem repr_length_in_year_range : ∀ k : Nat, k < 586 → (Nat.repr (1677 + k)).length = 4 := by
  decide

theorem year_repr_length {y : Nat} (h1 : 1677 ≤ y) (h2 : y ≤ 2262) :
    (Nat.repr y).length = 4 := by
  obtain ⟨k, rfl⟩ := Nat.le.dest h1
  exact repr_length_in_year_range k (by omega)

theorem pad2_length_in_range : ∀ m : Nat, m < 13 → (pad2 m).length = 2 := by
  decide

theorem formatMonth_length {d : Date} (h : ValidDate d) : (formatMonth d).length = 7 := by
  obtain ⟨h1, h2, h3, h4, _, _⟩ := h
  unfold formatMonth
  rw [String.length_append, String.length_append, year_repr_length h1 h2,
    pad2_length_in_range d.month (by omega)]
  rfl

theorem string_eq_of_data {a b : String} (h : a.data = b.data) : a = b := by
  cases a
  cases b
  simp_all

theorem string_take_append (a b : String) (n : Nat) (h : n = a.length) :
    (a ++ b).take n = a := by
  apply string_eq_of_data
  rw [String.data_take, String.data_append, h]
  exact List.take_left a.data b.data

theorem formatDate_take_seven {d : Date} (h : ValidDate d) :
    (formatDate d).take 7 = formatMonth d := by
  unfold formatDate
  rw [String.append_assoc]
  exact string_take_append (formatMonth d) ("-" ++ pad2 d.day) 7 (formatMonth_length h).symm

theorem isoDate?_valid : ∀ s d, isoDate? s = some d → ValidDate d := by
  intro s d h
  unfold isoDate? at h
  split at h
  · rename_i y m dd heq
    split at h
    · exact absurd h (by simp)
    · split at h
      · rename_i yv mv dv heq2
        split at h
        · rename_i hbounds
          obtain ⟨hy1, hy2, hm1, hm2, hd1, hd2⟩ := hbounds
          cases h
          exact ⟨hy1, hy2, hm1, hm2, hd1, hd2⟩
        · exact absurd h (by simp)
      · exact absurd h (by simp)
  · exact absurd h (by simp)

theorem survivor_date_valid (pd : String → Option Date) (pn : String → Option ℚ)
    (batch : List RawRecord) (hv : ∀ s d, pd s = some d → ValidDate d) :
    ∀ x ∈ survivorsOf pd pn batch, ValidDate x.date := by
  intro x hx
  unfold survivorsOf at hx
  obtain ⟨r, _, hr⟩ := List.mem_filterMap.mp hx
  unfold survivorOf at hr
  cases hp : pd r.order_date with
  | none => rw [hp] at hr; simp at hr
  | some d =>
    rw [hp] at hr
    have hx2 := Option.some.inj hr
    have hdate : x.date = d := by rw [← hx2]
    rw [hdate]
    exact hv _ _ hp

end Etl

namespace Etl

theorem filter_insertionSort_of_class {p : CleanedRecord → Bool}
    (hp : ∀ x y, p x = true → p y = true → cleanLe x y) (l : List CleanedRecord) :
    (List.insertionSort cleanLe l).filter p = l.filter p := by
  have h1 : List.Sublist (l.filter p) l := List.filter_sublist l
  have h2 : (l.filter p).Pairwise cleanLe :=
    List.pairwise_of_forall_mem_list fun a ha b hb =>
      hp a b (List.mem_filter.mp ha).2 (List.mem_filter.mp hb).2
  have h3 : List.Sublist (l.filter p) (List.insertionSort cleanLe l) :=
    List.sublist_insertionSort h2 h1
  have h4 := h3.filter p
  rw [List.filter_filter] at h4
  simp only [Bool.and_self] at h4
  have h5 : ((List.insertionSort cleanLe l).filter p).length = (l.filter p).length :=
    ((List.perm_insertionSort cleanLe l).filter p).length_eq
  exact (h4.eq_of_length h5.symm).symm

end Etl

namespace Etl

/-- A batch whose single row has the positive fractional quantity 0.4: it
survives every stage untouched and is rounded down to a zero quantity. -/
def c1cexBatch : List RawRecord := [⟨"O1", "2024-01-01", "C1", "widget", "0.4", "10"⟩]

/-- Claim C1, as stated: every emitted CleanedRecord would have a strictly
positive quantity.  Refuted: the quantity text 0.4 parses as a strictly
positive number, is not repaired, and the finalize stage rounds it to 0. -/
theorem c1_counterexample :
    ¬ (∀ c ∈ (transform_orders isoDate? decimal? c1cexBatch).1,
        0 < c.quantity ∧ 0 ≤ c.unit_price) := by
  decide

/-- Claim C1 (amended): for every CleanedRecord emitted by the transformer,
for any parsers and any input batch, the quantity field is greater than or
equal to 0 and the unit_price field is greater than or equal to 0 after the
repair and finalize stages. -/
theorem cleaned_quantity_nonneg_unit_price_nonneg :
    ∀ (pd : String → Option Date) (pn : String → Option ℚ) (batch : List RawRecord),
      ∀ c ∈ (transform_orders pd pn batch).1, 0 ≤ c.quantity ∧ 0 ≤ c.unit_price := by
  intro pd pn batch c hc
  obtain ⟨x, hx, rfl⟩ := (mem_transform_iff pd pn batch c).mp hc
  constructor
  · show 0 ≤ roundHalfEven (repairRecord (quantityFillValue (survivorsOf pd pn batch))
      (unitPriceFillValue (survivorsOf pd pn batch)) x).quantity_num
    exact roundHalfEven_nonneg
      (le_of_lt (repairRecord_quantity_pos (quantityFillValue (survivorsOf pd pn batch))
        (unitPriceFillValue (survivorsOf pd pn batch)) x
        (quantityFillValue_pos (survivorsOf pd pn batch))))
  · exact repairRecord_price_nonneg (quantityFillValue (survivorsOf pd pn batch))
      (unitPriceFillValue (survivorsOf pd pn batch)) x
      (unitPriceFillValue_nonneg (survivorsOf pd pn batch))

/-- A one-row batch with an ordinary valid row. -/
def c1demoBatch : List RawRecord := [⟨"O1", "2024-01-01", "C1", "widget", "2", "3"⟩]

/-- The first cleaned row of the C1 demonstration batch. -/
def c1sample : CleanedRecord :=
  ((transform_orders isoDate? decimal? c1demoBatch).1).headD ⟨"", "", "", "", 0, 0, "", 0⟩

theorem c1_witness : 0 ≤ c1sample.quantity ∧ 0 ≤ c1sample.unit_price :=
  cleaned_quantity_nonneg_unit_price_nonneg isoDate? decimal? c1demoBatch c1sample (by decide)

/-- The batch of the median-fill scenario: survivor quantity texts
3, -1, 0, 5, x and 7, all dates valid. -/
def c2batch : List RawRecord :=
  [⟨"O1", "2024-01-01", "C1", "w", "3", "2"⟩,
   ⟨"O2", "2024-01-02", "C2", "w", "-1", "2"⟩,
   ⟨"O3", "2024-01-03", "C3", "w", "0", "2"⟩,
   ⟨"O4", "2024-01-04", "C4", "w", "5", "2"⟩,
   ⟨"O5", "2024-01-05", "C5", "w", "x", "2"⟩,
   ⟨"O6", "2024-01-06", "C6", "w", "7", "2"⟩]

/-- Claim C2, as stated: on the quantity texts 3, -1, 0, 5, x, 7 only two
entries would be invalid.  Refuted: the repair mask marks quantities that
are unparseable or non-positive, so -1, 0 and x are all invalid and
filled_quantity_count is 3, not 2. -/
theorem c2_counterexample :
    ¬ ((transform_orders isoDate? decimal? c2batch).2.filled_quantity_count = 2) := by
  decide

/-- Claim C2 (amended): for every batch the quantity fill value is the
median of the strictly positive parsed quantities among survivors, or 1 if
none exists, and likewise the unit-price fill value is the median of the
non-negative parsed prices, or 0 if none exists; the reported stats carry
these values rounded to 2 decimals.  On survivor quantity texts
3, -1, 0, 5, x, 7 the fill value is 5 and the three invalid entries
(-1, 0 and x) are all repaired to 5, with filled_quantity_count 3. -/
theorem fill_values_are_medians :
    (∀ (pd : String → Option Date) (pn : String → Option ℚ) (batch : List RawRecord),
      (quantityFillValue (survivorsOf pd pn batch) =
        (if ((survivorsOf pd pn batch).filterMap Survivor.quantity_num).filter
            (fun q => decide (0 < q)) = [] then 1
         else median (((survivorsOf pd pn batch).filterMap Survivor.quantity_num).filter
            (fun q => decide (0 < q)))))
      ∧ (unitPriceFillValue (survivorsOf pd pn batch) =
        (if ((survivorsOf pd pn batch).filterMap Survivor.unit_price_num).filter
            (fun q => decide (0 ≤ q)) = [] then 0
         else median (((survivorsOf pd pn batch).filterMap Survivor.unit_price_num).filter
            (fun q => decide (0 ≤ q)))))
      ∧ (transform_orders pd pn batch).2.quantity_fill_value =
          normalize_number (quantityFillValue (survivorsOf pd pn batch))
      ∧ (transform_orders pd pn batch).2.unit_price_fill_value =
          normalize_number (unitPriceFillValue (survivorsOf pd pn batch)))
    ∧ ((transform_orders isoDate? decimal? c2batch).2.quantity_fill_value = 5
      ∧ (repairedOf isoDate? decimal? c2batch).map Repaired.quantity_num = [3, 5, 5, 5, 5, 7]
      ∧ (transform_orders isoDate? decimal? c2batch).2.filled_quantity_count = 3) := by
  constructor
  · intro pd pn batch
    refine ⟨?_, ?_, rfl, rfl⟩
    · simp only [quantityFillValue]
      by_cases h : ((survivorsOf pd pn batch).filterMap Survivor.quantity_num).filter
          (fun q => decide (0 < q)) = []
      · simp [h]
      · simp [h, List.isEmpty_iff]
    · simp only [unitPriceFillValue]
      by_cases h : ((survivorsOf pd pn batch).filterMap Survivor.unit_price_num).filter
          (fun q => decide (0 ≤ q)) = []
      · simp [h]
      · simp [h, List.isEmpty_iff]
  · refine ⟨by decide, by decide, by decide⟩

/-- Claim C3: the cleaned row count plus the dropped row count equals the
input row count, for every batch and any parsers; the date filter is the
only stage that removes rows. -/
theorem transformed_plus_dropped_eq_input :
    ∀ (pd : String → Option Date) (pn : String → Option ℚ) (batch : List RawRecord),
      (transform_orders pd pn batch).2.transformed_records +
        (transform_orders pd pn batch).2.dropped_invalid_order_date_count = batch.length := by
  intro pd pn batch
  show (List.insertionSort cleanLe (finalizedOf pd pn batch)).length + droppedCount pd batch = _
  rw [List.length_insertionSort]
  unfold finalizedOf repairedOf survivorsOf droppedCount
  rw [List.length_map, List.length_map, length_filterMap_eq_countP]
  have hcong : (batch.map trimRecord).countP (fun r => (survivorOf pd pn r).isSome)
      = (batch.map trimRecord).countP (fun r => (pd r.order_date).isSome) := by
    apply List.countP_congr
    intro r _
    simp [survivorOf]
  rw [hcong]
  have hsplit := List.length_eq_countP_add_countP
    (fun r => (pd r.order_date).isSome) (l := batch.map trimRecord)
  have hnone : (batch.map trimRecord).countP (fun r => (pd r.order_date).isNone)
      = (batch.map trimRecord).countP (fun a => ¬ ((pd a.order_date).isSome) = true) := by
    apply List.countP_congr
    intro r _
    cases pd r.order_date <;> simp
  rw [hnone]
  rw [List.length_map] at hsplit
  omega

end Etl

namespace Etl

/-- A batch whose first row has a whitespace-only customer and an
unparseable quantity, and whose second row has an unparseable price. -/
def c4batch : List RawRecord :=
  [⟨"O1", "2024-01-03", "  ", "widget", "x", "5"⟩,
   ⟨"O2", "2024-01-04", "C7", "gadget", "2", "x"⟩]

/-- Claim C4: every repair counter equals the number of survivors whose
repair condition holds on the pre-repair values, one count per triggered
condition; in the concrete batch the first survivor triggers both the
customer and the quantity repair yet contributes exactly 1 to
filled_customer_id_count, and its customer becomes the sentinel. -/
theorem repair_counts_from_premasks :
    (∀ (pd : String → Option Date) (pn : String → Option ℚ) (batch : List RawRecord),
      (transform_orders pd pn batch).2.filled_customer_id_count =
          (survivorsOf pd pn batch).countP customerMissing
      ∧ (transform_orders pd pn batch).2.filled_quantity_count =
          (survivorsOf pd pn batch).countP quantityInvalid
      ∧ (transform_orders pd pn batch).2.filled_unit_price_count =
          (survivorsOf pd pn batch).countP unitPriceInvalid)
    ∧ ((transform_orders isoDate? decimal? c4batch).2.filled_customer_id_count = 1
      ∧ (transform_orders isoDate? decimal? c4batch).2.filled_quantity_count = 1
      ∧ (transform_orders isoDate? decimal? c4batch).2.filled_unit_price_count = 1
      ∧ (transform_orders isoDate? decimal? c4batch).1.map CleanedRecord.customer_id =
          ["UNKNOWN_CUSTOMER", "C7"]) :=
  ⟨fun _ _ _ => ⟨rfl, rfl, rfl⟩, by decide, by decide, by decide, by decide⟩

/-- Two valid rows whose order dates arrive in descending order. -/
def c5batch : List RawRecord :=
  [⟨"O9", "2024-01-02", "C1", "w", "1", "1"⟩,
   ⟨"O1", "2024-01-01", "C2", "w", "1", "1"⟩]

/-- Claim C5: the output is sorted ascending by the key pair
(order_date, order_id), and for every fixed key the output lists the
finalized survivors with that key in their original relative order (the
sort is stable); in the concrete batch the row dated 2024-01-01 comes
first although it arrived second. -/
theorem output_sorted_and_stable :
    (∀ (pd : String → Option Date) (pn : String → Option ℚ) (batch : List RawRecord),
      List.Sorted cleanLe (transform_orders pd pn batch).1
      ∧ ∀ ds oid, (transform_orders pd pn batch).1.filter
            (fun c => decide (c.order_date = ds) && decide (c.order_id = oid))
          = (finalizedOf pd pn batch).filter
            (fun c => decide (c.order_date = ds) && decide (c.order_id = oid)))
    ∧ (transform_orders isoDate? decimal? c5batch).1.map CleanedRecord.order_date
        = ["2024-01-01", "2024-01-02"] := by
  constructor
  · intro pd pn batch
    constructor
    · show List.Sorted cleanLe (List.insertionSort cleanLe (finalizedOf pd pn batch))
      exact List.sorted_insertionSort cleanLe _
    · intro ds oid
      show (List.insertionSort cleanLe (finalizedOf pd pn batch)).filter _ = _
      apply filter_insertionSort_of_class
      intro x y hx hy
      obtain ⟨hx1, hx2⟩ := Bool.and_eq_true_iff.mp hx
      obtain ⟨hy1, hy2⟩ := Bool.and_eq_true_iff.mp hy
      have hd : x.order_date = y.order_date :=
        (of_decide_eq_true hx1).trans (of_decide_eq_true hy1).symm
      have hi : x.order_id = y.order_id :=
        (of_decide_eq_true hx2).trans (of_decide_eq_true hy2).symm
      unfold cleanLe keyLeB
      rw [if_pos (congrArg String.data hd), hi]
      exact charsLe_refl _
  · decide

/-- Claim C6: every emitted CleanedRecord carries
line_total = round2 of (quantity times unit_price), computed from its own
finalized quantity and unit price. -/
theorem line_total_eq_round2_product :
    ∀ (pd : String → Option Date) (pn : String → Option ℚ) (batch : List RawRecord),
      ∀ c ∈ (transform_orders pd pn batch).1,
        c.line_total = round2 ((c.quantity : ℚ) * c.unit_price) := by
  intro pd pn batch c hc
  obtain ⟨x, _, rfl⟩ := (mem_transform_iff pd pn batch c).mp hc
  rfl

/-- A one-row batch with a fractional unit price. -/
def c6batch : List RawRecord := [⟨"O1", "2024-01-01", "C1", "widget", "3", "2.5"⟩]

/-- The first cleaned row of the C6 demonstration batch. -/
def c6sample : CleanedRecord :=
  ((transform_orders isoDate? decimal? c6batch).1).headD ⟨"", "", "", "", 0, 0, "", 0⟩

theorem c6_witness : c6sample.line_total = round2 ((c6sample.quantity : ℚ) * c6sample.unit_price) :=
  line_total_eq_round2_product isoDate? decimal? c6batch c6sample (by decide)

/-- Claim C7: on the empty batch the transformer succeeds, returning no
rows and all-zero counters with the fallback fill values 1 and 0. -/
theorem empty_batch_result :
    ∀ (pd : String → Option Date) (pn : String → Option ℚ),
      transform_orders pd pn [] = ([], ⟨0, 0, 0, 0, 0, 1, 0⟩) := by
  intro pd pn
  have h1 : normalize_number 1 = 1 := by decide
  have h0 : normalize_number 0 = 0 := by decide
  simp [transform_orders, finalizedOf, repairedOf, survivorsOf, droppedCount,
    quantityFillValue, unitPriceFillValue, h1, h0, List.insertionSort]

end Etl

namespace Etl

/-- A small valid batch for the determinism witness. -/
def c8batch : List RawRecord :=
  [⟨"O1", "2024-01-01", "C1", "w", "2", "3"⟩,
   ⟨"O2", "2024-02-01", "", "w", "-4", "x"⟩]

/-- Claim C8: the transformer is deterministic; equal batches (with the
same parsers) yield identical cleaned sequences and identical stats. -/
theorem transform_deterministic :
    ∀ (pd : String → Option Date) (pn : String → Option ℚ) (b₁ b₂ : List RawRecord),
      b₁ = b₂ → transform_orders pd pn b₁ = transform_orders pd pn b₂ := by
  intro pd pn b₁ b₂ h
  rw [h]

theorem c8_witness :
    transform_orders isoDate? decimal? c8batch = transform_orders isoDate? decimal? c8batch :=
  transform_deterministic isoDate? decimal? c8batch c8batch rfl

/-- Claim C9: when the date parser returns only valid pandas dates, every
emitted row has order_month equal to the first 7 characters of
order_date. -/
theorem order_month_is_seven_char_prefix :
    ∀ (pd : String → Option Date) (pn : String → Option ℚ) (batch : List RawRecord),
      (∀ s d, pd s = some d → ValidDate d) →
      ∀ c ∈ (transform_orders pd pn batch).1, c.order_month = c.order_date.take 7 := by
  intro pd pn batch hv c hc
  obtain ⟨x, hx, rfl⟩ := (mem_transform_iff pd pn batch c).mp hc
  have hvalid : ValidDate x.date := survivor_date_valid pd pn batch hv x hx
  show formatMonth (repairRecord (quantityFillValue (survivorsOf pd pn batch))
      (unitPriceFillValue (survivorsOf pd pn batch)) x).date
    = (formatDate (repairRecord (quantityFillValue (survivorsOf pd pn batch))
      (unitPriceFillValue (survivorsOf pd pn batch)) x).date).take 7
  have hdate : (repairRecord (quantityFillValue (survivorsOf pd pn batch))
      (unitPriceFillValue (survivorsOf pd pn batch)) x).date = x.date := rfl
  rw [hdate]
  exact (formatDate_take_seven hvalid).symm

/-- A one-row batch for the C9 witness. -/
def c9batch : List RawRecord := [⟨"O1", "2024-03-05", "C1", "w", "2", "3"⟩]

/-- The first cleaned row of the C9 demonstration batch. -/
def c9sample : CleanedRecord :=
  ((transform_orders isoDate? decimal? c9batch).1).headD ⟨"", "", "", "", 0, 0, "", 0⟩

theorem c9_witness : c9sample.order_month = c9sample.order_date.take 7 :=
  order_month_is_seven_char_prefix isoDate? decimal? c9batch isoDate?_valid c9sample (by decide)

/-- Claim C10: repair is frame-preserving.  At batch level it is a map over
the survivors, so their number is unchanged; at record level it keeps
order_id, product and the parsed date, and it keeps customer_id, the parsed
quantity and the parsed price whenever the respective repair condition
fails on the pre-repair values. -/
theorem repair_is_frame_preserving :
    (∀ (pd : String → Option Date) (pn : String → Option ℚ) (batch : List RawRecord),
      repairedOf pd pn batch = (survivorsOf pd pn batch).map
        (repairRecord (quantityFillValue (survivorsOf pd pn batch))
          (unitPriceFillValue (survivorsOf pd pn batch)))
      ∧ (repairedOf pd pn batch).length = (survivorsOf pd pn batch).length)
    ∧ (∀ (qf pf : ℚ) (x : Survivor),
        (repairRecord qf pf x).order_id = x.order_id
        ∧ (repairRecord qf pf x).product = x.product
        ∧ (repairRecord qf pf x).date = x.date
        ∧ (customerMissing x = false → (repairRecord qf pf x).customer_id = x.customer_id)
        ∧ (quantityInvalid x = false →
            x.quantity_num = some ((repairRecord qf pf x).quantity_num))
        ∧ (unitPriceInvalid x = false →
            x.unit_price_num = some ((repairRecord qf pf x).unit_price_num))) := by
  constructor
  · intro pd pn batch
    exact ⟨rfl, by rw [repairedOf, List.length_map]⟩
  · intro qf pf x
    refine ⟨rfl, rfl, rfl, ?_, ?_, ?_⟩
    · intro h
      simp [repairRecord, h]
    · intro h
      cases hx : x.quantity_num with
      | none => simp [quantityInvalid, hx] at h
      | some v => simp [repairRecord, h, hx]
    · intro h
      cases hx : x.unit_price_num with
      | none => simp [unitPriceInvalid, hx] at h
      | some v => simp [repairRecord, h, hx]

/-- A survivor none of whose repair conditions hold. -/
def c10survivor : Survivor := ⟨"O9", "C9", "w", ⟨2024, 2, 3⟩, some 3, some 2⟩

theorem c10_witness :
    (repairRecord 1 1 c10survivor).customer_id = c10survivor.customer_id
    ∧ c10survivor.quantity_num = some ((repairRecord 1 1 c10survivor).quantity_num)
    ∧ c10survivor.unit_price_num = some ((repairRecord 1 1 c10survivor).unit_price_num) :=
  ⟨(repair_is_frame_preserving.2 1 1 c10survivor).2.2.2.1 (by decide),
   (repair_is_frame_preserving.2 1 1 c10survivor).2.2.2.2.1 (by decide),
   (repair_is_frame_preserving.2 1 1 c10survivor).2.2.2.2.2 (by decide)⟩

end Etl
